import Mathlib

/-! # Receiver lifecycle of `receiver/octrace/trace_receiver.go`

A shallow embedding of the OpenCensus trace receiver handle: the two
constructors, `StartTraceReception` with its `startInternal` body, and
`StopTraceReception`.

Modelling conventions.

* The handle is a record that every operation takes and returns.
* Calls into other packages (`New`, `net.Listen`,
  `internal.GRPCServerWithObservabilityEnabled`) are answered by an `Env`
  value that is supplied afresh with every call, so the outside world may
  answer differently from one call to the next.
* Every externally visible action is appended to a list of `Effect`s.
* Calls are sequential. The mutex `mu` is therefore always free when a call
  begins; its `Lock`/`Unlock` pair is recorded as effects and the handle
  record carries no field for it.
* A Go run-time panic is a result of its own (`CallResult.panicked`).
-/

namespace octrace

/-! ## Data model -/

/-- Go `error` values. `errorsNew` stands for a package level value built with
`errors.New`; `foreign` stands for an error handed back by another package. -/
inductive GoError where
  | errorsNew (text : String)
  | foreign (code : Nat) (text : String)
  deriving DecidableEq, Repr

/-- The `context.Context` argument; neither operation reads it. -/
structure Context where
  id : Nat
  deriving DecidableEq, Repr

/-- A `spansink.Sink`. -/
structure Sink where
  id : Nat
  deriving DecidableEq, Repr

/-- A receiver `Option` (named `Opt` here to keep clear of the core type). -/
structure Opt where
  id : Nat
  deriving DecidableEq, Repr

/-- The `*Receiver` that `New` returns: the protocol adapter. -/
structure Receiver where
  id : Nat
  deriving DecidableEq, Repr

/-- A `net.Listener`. -/
structure Listener where
  id : Nat
  deriving DecidableEq, Repr

/-- A non-nil `*grpc.Server`. -/
structure GrpcServer where
  id : Nat
  deriving DecidableEq, Repr

/-- A `sync.Once`: `done` is set once `Do` has run its function. -/
structure Once where
  done : Bool
  deriving DecidableEq, Repr

/-- The struct `ocReceiverHandler` (lines 42-53). A nil `ln` or `grpcServer`
is `none`. -/
structure ocReceiverHandler where
  srvPort : Int
  receiverOptions : List Opt
  ln : Option Listener
  grpcServer : Option GrpcServer
  stopOnce : Once
  startOnce : Once
  deriving DecidableEq, Repr

/-- Answers of the packages that `startInternal` calls into. -/
structure Env where
  New : Sink → List Opt → Except GoError Receiver
  Listen : String → String → Except GoError Listener
  GRPCServerWithObservabilityEnabled : GrpcServer

/-- Externally visible actions, in program order. -/
inductive Effect where
  | muLock
  | muUnlock
  | callNew (sr : Sink) (opts : List Opt)
  | netListen (network : String) (addr : String)
  | serverCreated (srv : GrpcServer)
  | registerTraceServiceServer (srv : GrpcServer) (oci : Receiver)
  | goServe (srv : GrpcServer) (ln : Listener)
  | serverStop (srv : GrpcServer)
  deriving DecidableEq, Repr

/-- How a call ends: it returns an `error` (`none` is nil) or it panics. -/
inductive CallResult where
  | returned (err : Option GoError)
  | panicked (msg : String)
  deriving DecidableEq, Repr

/-- What a call leaves behind: the handle, the actions performed, the result. -/
structure Outcome where
  handle : ocReceiverHandler
  effects : List Effect
  result : CallResult
  deriving DecidableEq, Repr

/-! ## Constants -/

/-- Line 57. -/
def errAlreadyStarted : GoError := GoError.errorsNew "already started"

/-- Line 103. -/
def errAlreadyStopped : GoError := GoError.errorsNew "already stopped"

/-- Line 69. -/
def defaultOCReceiverPort : Int := 55678

/-- The message of the run-time panic raised by a nil pointer dereference. -/
def nilDereference : String :=
  "runtime error: invalid memory address or nil pointer dereference"

/-! ## Operations -/

/-- Lines 33-35. The returned error is always nil. -/
def NewTraceReceiver (port : Int) (opts : List Opt) :
    ocReceiverHandler × Option GoError :=
  ({ srvPort := port, receiverOptions := opts, ln := none, grpcServer := none,
     stopOnce := ⟨false⟩, startOnce := ⟨false⟩ }, none)

/-- Lines 38-40. -/
def NewTraceReceiverOnDefaultPort (opts : List Opt) :
    ocReceiverHandler × Option GoError :=
  ({ srvPort := defaultOCReceiverPort, receiverOptions := opts, ln := none,
     grpcServer := none, stopOnce := ⟨false⟩, startOnce := ⟨false⟩ }, none)

/-- The call `fmt.Sprintf("localhost:%d", port)` of line 85. -/
def sprintfLocalhost (port : Int) : String :=
  "localhost:" ++ toString port

/-- Lines 71-101. The deferred `Unlock` runs on every way out. -/
def startInternal (env : Env) (ocih : ocReceiverHandler) (_ctx : Context)
    (sr : Sink) : ocReceiverHandler × List Effect × Option GoError :=
  match env.New sr ocih.receiverOptions with
  | .error err =>
    (ocih, [.muLock, .callNew sr ocih.receiverOptions, .muUnlock], some err)
  | .ok oci =>
    let port := ocih.srvPort
    let port := if port ≤ 0 then defaultOCReceiverPort else port
    let addr := sprintfLocalhost port
    match env.Listen "tcp" addr with
    | .error err =>
      (ocih,
        [.muLock, .callNew sr ocih.receiverOptions, .netListen "tcp" addr,
          .muUnlock],
        some err)
    | .ok ln =>
      let srv := env.GRPCServerWithObservabilityEnabled
      ({ ocih with ln := some ln, grpcServer := some srv },
        [.muLock, .callNew sr ocih.receiverOptions, .netListen "tcp" addr,
          .serverCreated srv, .registerTraceServiceServer srv oci,
          .goServe srv ln, .muUnlock],
        none)

/-- Lines 60-67. `startOnce.Do` runs its function only while `done` is unset
and sets `done` when the function is over. -/
def StartTraceReception (env : Env) (ocih : ocReceiverHandler) (ctx : Context)
    (sr : Sink) : Outcome :=
  let err := some errAlreadyStarted
  if ocih.startOnce.done then
    { handle := ocih, effects := [], result := .returned err }
  else
    let r := startInternal env ocih ctx sr
    { handle := { r.1 with startOnce := ⟨true⟩ },
      effects := r.2.1,
      result := .returned r.2.2 }

/-- Lines 105-117. `stopOnce.Do` runs its function only while `done` is unset
and sets `done` when the function is over, also when it panics. The function
calls `Stop` on `ocih.grpcServer` without a nil test; `(*grpc.Server).Stop`
reads fields of its receiver, so a nil receiver ends in a nil pointer
dereference, after which the deferred `Unlock` runs and the panic leaves
`StopTraceReception`. -/
def StopTraceReception (ocih : ocReceiverHandler) (_ctx : Context) : Outcome :=
  let err := some errAlreadyStopped
  if ocih.stopOnce.done then
    { handle := ocih, effects := [], result := .returned err }
  else
    match ocih.grpcServer with
    | none =>
      { handle := { ocih with stopOnce := ⟨true⟩ },
        effects := [.muLock, .muUnlock],
        result := .panicked nilDereference }
    | some srv =>
      { handle := { ocih with stopOnce := ⟨true⟩ },
        effects := [.muLock, .serverStop srv, .muUnlock],
        result := .returned none }

/-! ## Sequences of calls -/

/-- One call on a handle. -/
inductive Call where
  | start (env : Env) (ctx : Context) (sr : Sink)
  | stop (ctx : Context)

/-- Perform one call. -/
def step (h : ocReceiverHandler) : Call → Outcome
  | .start env ctx sr => StartTraceReception env h ctx sr
  | .stop ctx => StopTraceReception h ctx

/-- Perform calls one after the other, left to right, collecting all effects
and the result of each call. A caller that recovers from a panic goes on with
the next call. -/
def run (h : ocReceiverHandler) :
    List Call → ocReceiverHandler × List Effect × List CallResult
  | [] => (h, [], [])
  | c :: cs =>
    let o := step h c
    let r := run o.handle cs
    (r.1, o.effects ++ r.2.1, o.result :: r.2.2)

/-- The handle is as the constructors leave it. -/
def notStarted (h : ocReceiverHandler) : Prop :=
  h.ln = none ∧ h.grpcServer = none ∧ h.startOnce.done = false ∧
    h.stopOnce.done = false

instance (h : ocReceiverHandler) : Decidable (notStarted h) := by
  unfold notStarted; infer_instance

/-- Says whether an effect is a bind attempt. -/
def Effect.isListen : Effect → Bool
  | .netListen _ _ => true
  | _ => false

/-- Says whether an effect is the creation of a server. -/
def Effect.isServerCreated : Effect → Bool
  | .serverCreated _ => true
  | _ => false

/-- Says whether an effect is a call of `New`. -/
def Effect.isCallNew : Effect → Bool
  | .callNew _ _ => true
  | _ => false

/-- Says whether an effect terminates a server. -/
def Effect.isServerStop : Effect → Bool
  | .serverStop _ => true
  | _ => false

/-- An environment in which construction and binding both succeed. -/
def envOk : Env :=
  { New := fun sr _ => .ok ⟨sr.id⟩
    Listen := fun _ _ => .ok ⟨7⟩
    GRPCServerWithObservabilityEnabled := ⟨9⟩ }

/-- An environment in which construction fails. -/
def envNewFails : Env :=
  { New := fun _ _ => .error (.foreign 1 "needs a non-nil spansink.Sink")
    Listen := fun _ _ => .ok ⟨7⟩
    GRPCServerWithObservabilityEnabled := ⟨9⟩ }

/-- An environment in which binding fails. -/
def envListenFails : Env :=
  { New := fun sr _ => .ok ⟨sr.id⟩
    Listen := fun _ _ => .error (.foreign 2 "bind: address already in use")
    GRPCServerWithObservabilityEnabled := ⟨9⟩ }

/-- A list of `StartTraceReception` calls, each with its own environment. -/
def startCalls (cs : List (Env × Context × Sink)) : List Call :=
  cs.map fun c => Call.start c.1 c.2.1 c.2.2

/-- A list of `StopTraceReception` calls. -/
def stopCalls (cs : List Context) : List Call :=
  cs.map fun c => Call.stop c

/-- Says whether a call is a `StartTraceReception`. -/
def Call.isStart : Call → Bool
  | .start _ _ _ => true
  | .stop _ => false

/-- Says whether a call is a `StopTraceReception`. -/
def Call.isStop : Call → Bool
  | .start _ _ _ => false
  | .stop _ => true

/-- The port that `startInternal` binds (lines 80-83). -/
def boundPort (ocih : ocReceiverHandler) : Int :=
  if ocih.srvPort ≤ 0 then defaultOCReceiverPort else ocih.srvPort

/-! ## Basic facts about single calls -/

theorem startInternal_new_error (env : Env) (h : ocReceiverHandler)
    (ctx : Context) (sr : Sink) (e : GoError)
    (hnew : env.New sr h.receiverOptions = .error e) :
    startInternal env h ctx sr
      = (h, [.muLock, .callNew sr h.receiverOptions, .muUnlock], some e) := by
  simp [startInternal, hnew]

theorem startInternal_listen_error (env : Env) (h : ocReceiverHandler)
    (ctx : Context) (sr : Sink) (oci : Receiver) (e : GoError)
    (hnew : env.New sr h.receiverOptions = .ok oci)
    (hln : env.Listen "tcp" (sprintfLocalhost (boundPort h)) = .error e) :
    startInternal env h ctx sr
      = (h, [.muLock, .callNew sr h.receiverOptions,
              .netListen "tcp" (sprintfLocalhost (boundPort h)), .muUnlock],
          some e) := by
  unfold boundPort at hln ⊢
  simp [startInternal, hnew, hln]

theorem startInternal_ok (env : Env) (h : ocReceiverHandler)
    (ctx : Context) (sr : Sink) (oci : Receiver) (ln : Listener)
    (hnew : env.New sr h.receiverOptions = .ok oci)
    (hln : env.Listen "tcp" (sprintfLocalhost (boundPort h)) = .ok ln) :
    startInternal env h ctx sr
      = ({ h with ln := some ln,
                  grpcServer := some env.GRPCServerWithObservabilityEnabled },
          [.muLock, .callNew sr h.receiverOptions,
            .netListen "tcp" (sprintfLocalhost (boundPort h)),
            .serverCreated env.GRPCServerWithObservabilityEnabled,
            .registerTraceServiceServer env.GRPCServerWithObservabilityEnabled oci,
            .goServe env.GRPCServerWithObservabilityEnabled ln, .muUnlock],
          none) := by
  unfold boundPort at hln ⊢
  simp [startInternal, hnew, hln]

theorem startInternal_cases (env : Env) (h : ocReceiverHandler)
    (ctx : Context) (sr : Sink) :
    (∃ e, env.New sr h.receiverOptions = .error e ∧
      startInternal env h ctx sr
        = (h, [.muLock, .callNew sr h.receiverOptions, .muUnlock], some e)) ∨
    (∃ oci e, env.New sr h.receiverOptions = .ok oci ∧
      env.Listen "tcp" (sprintfLocalhost (boundPort h)) = .error e ∧
      startInternal env h ctx sr
        = (h, [.muLock, .callNew sr h.receiverOptions,
                .netListen "tcp" (sprintfLocalhost (boundPort h)), .muUnlock],
            some e)) ∨
    (∃ oci ln, env.New sr h.receiverOptions = .ok oci ∧
      env.Listen "tcp" (sprintfLocalhost (boundPort h)) = .ok ln ∧
      startInternal env h ctx sr
        = ({ h with ln := some ln,
                    grpcServer := some env.GRPCServerWithObservabilityEnabled },
            [.muLock, .callNew sr h.receiverOptions,
              .netListen "tcp" (sprintfLocalhost (boundPort h)),
              .serverCreated env.GRPCServerWithObservabilityEnabled,
              .registerTraceServiceServer env.GRPCServerWithObservabilityEnabled oci,
              .goServe env.GRPCServerWithObservabilityEnabled ln, .muUnlock],
            none)) := by
  cases hnew : env.New sr h.receiverOptions with
  | error e =>
    exact Or.inl ⟨e, rfl, startInternal_new_error env h ctx sr e hnew⟩
  | ok oci =>
    cases hln : env.Listen "tcp" (sprintfLocalhost (boundPort h)) with
    | error e =>
      exact Or.inr (Or.inl ⟨oci, e, rfl, rfl,
        startInternal_listen_error env h ctx sr oci e hnew hln⟩)
    | ok ln =>
      exact Or.inr (Or.inr ⟨oci, ln, rfl, rfl,
        startInternal_ok env h ctx sr oci ln hnew hln⟩)

theorem start_when_done (env : Env) (h : ocReceiverHandler) (ctx : Context)
    (sr : Sink) (hd : h.startOnce.done = true) :
    StartTraceReception env h ctx sr
      = { handle := h, effects := [],
          result := .returned (some errAlreadyStarted) } := by
  simp [StartTraceReception, hd]

theorem start_when_not_done (env : Env) (h : ocReceiverHandler) (ctx : Context)
    (sr : Sink) (hd : h.startOnce.done = false) :
    StartTraceReception env h ctx sr
      = { handle := { (startInternal env h ctx sr).1 with startOnce := ⟨true⟩ },
          effects := (startInternal env h ctx sr).2.1,
          result := .returned (startInternal env h ctx sr).2.2 } := by
  simp [StartTraceReception, hd]

theorem start_sets_done (env : Env) (h : ocReceiverHandler) (ctx : Context)
    (sr : Sink) : (StartTraceReception env h ctx sr).handle.startOnce.done = true := by
  unfold StartTraceReception
  split <;> simp_all

theorem stop_when_done (h : ocReceiverHandler) (ctx : Context)
    (hd : h.stopOnce.done = true) :
    StopTraceReception h ctx
      = { handle := h, effects := [],
          result := .returned (some errAlreadyStopped) } := by
  simp [StopTraceReception, hd]

theorem stop_when_server_nil (h : ocReceiverHandler) (ctx : Context)
    (hd : h.stopOnce.done = false) (hsrv : h.grpcServer = none) :
    StopTraceReception h ctx
      = { handle := { h with stopOnce := ⟨true⟩ },
          effects := [.muLock, .muUnlock],
          result := .panicked nilDereference } := by
  simp [StopTraceReception, hd, hsrv]

theorem run_starts_when_done (cs : List (Env × Context × Sink))
    (h : ocReceiverHandler) (hd : h.startOnce.done = true) :
    run h (startCalls cs)
      = (h, [], List.replicate cs.length
                  (CallResult.returned (some errAlreadyStarted))) := by
  induction cs with
  | nil => simp [startCalls, run]
  | cons c cs ih =>
    have ih2 : run h (List.map (fun c => Call.start c.1 c.2.1 c.2.2) cs)
        = (h, [], List.replicate cs.length
                    (CallResult.returned (some errAlreadyStarted))) := ih
    simp [startCalls, run, step, start_when_done _ _ _ _ hd, ih2,
      List.replicate_succ]

theorem run_stops_when_done (cs : List Context)
    (h : ocReceiverHandler) (hd : h.stopOnce.done = true) :
    run h (stopCalls cs)
      = (h, [], List.replicate cs.length
                  (CallResult.returned (some errAlreadyStopped))) := by
  induction cs with
  | nil => simp [stopCalls, run]
  | cons c cs ih =>
    have ih2 : run h (List.map (fun c => Call.stop c) cs)
        = (h, [], List.replicate cs.length
                    (CallResult.returned (some errAlreadyStopped))) := ih
    simp [stopCalls, run, step, stop_when_done _ _ hd, ih2,
      List.replicate_succ]

theorem sprintfLocalhost_pos (q : Int) (hq : 0 < q) :
    sprintfLocalhost q = "localhost:" ++ String.mk (Nat.toDigits 10 q.toNat) := by
  obtain ⟨n, rfl⟩ := Int.eq_ofNat_of_zero_le (le_of_lt hq)
  rfl

theorem boundPort_eq (h : ocReceiverHandler) :
    boundPort h = if 0 < h.srvPort then h.srvPort else 55678 := by
  unfold boundPort defaultOCReceiverPort
  by_cases hp : h.srvPort ≤ 0
  · simp [hp, not_lt.mpr hp]
  · simp [hp, not_le.mp hp]

theorem boundPort_pos (h : ocReceiverHandler) : 0 < boundPort h := by
  rw [boundPort_eq]
  split
  · assumption
  · decide

theorem start_listen_effects (env : Env) (h : ocReceiverHandler) (ctx : Context)
    (sr : Sink) (oci : Receiver) (hns : h.startOnce.done = false)
    (hnew : env.New sr h.receiverOptions = .ok oci) :
    (StartTraceReception env h ctx sr).effects.filter Effect.isListen
      = [.netListen "tcp" (sprintfLocalhost (boundPort h))] := by
  rw [start_when_not_done env h ctx sr hns]
  rcases startInternal_cases env h ctx sr with ⟨e, he, _⟩ | ⟨oci, e, _, _, hs⟩ |
    ⟨oci, ln, _, _, hs⟩
  · rw [hnew] at he; cases he
  · rw [hs]; simp [List.filter, Effect.isListen]
  · rw [hs]; simp [List.filter, Effect.isListen]

/-! ## Facts about one step and about runs -/

theorem start_config (env : Env) (h : ocReceiverHandler) (ctx : Context)
    (sr : Sink) :
    (StartTraceReception env h ctx sr).handle.srvPort = h.srvPort ∧
    (StartTraceReception env h ctx sr).handle.receiverOptions = h.receiverOptions ∧
    (StartTraceReception env h ctx sr).handle.stopOnce = h.stopOnce := by
  cases hd : h.startOnce.done with
  | true => rw [start_when_done env h ctx sr hd]; exact ⟨rfl, rfl, rfl⟩
  | false =>
    rw [start_when_not_done env h ctx sr hd]
    rcases startInternal_cases env h ctx sr with ⟨e, _, hs⟩ | ⟨oci, e, _, _, hs⟩ |
      ⟨oci, ln, _, _, hs⟩ <;> rw [hs] <;> exact ⟨rfl, rfl, rfl⟩

theorem stop_config (h : ocReceiverHandler) (ctx : Context) :
    (StopTraceReception h ctx).handle.srvPort = h.srvPort ∧
    (StopTraceReception h ctx).handle.receiverOptions = h.receiverOptions ∧
    (StopTraceReception h ctx).handle.startOnce = h.startOnce ∧
    (StopTraceReception h ctx).handle.ln = h.ln ∧
    (StopTraceReception h ctx).handle.grpcServer = h.grpcServer := by
  unfold StopTraceReception
  cases h.stopOnce.done with
  | true => simp
  | false => cases h.grpcServer <;> simp

theorem stop_effects_no_start (h : ocReceiverHandler) (ctx : Context) :
    List.countP Effect.isListen (StopTraceReception h ctx).effects = 0 ∧
    List.countP Effect.isServerCreated (StopTraceReception h ctx).effects = 0 := by
  unfold StopTraceReception
  cases h.stopOnce.done with
  | true => simp
  | false =>
    cases h.grpcServer <;>
      simp [List.countP_cons, Effect.isListen, Effect.isServerCreated]

theorem start_effects_count (env : Env) (h : ocReceiverHandler) (ctx : Context)
    (sr : Sink) :
    List.countP Effect.isListen (StartTraceReception env h ctx sr).effects
      ≤ (if h.startOnce.done then 0 else 1) ∧
    List.countP Effect.isServerCreated (StartTraceReception env h ctx sr).effects
      ≤ (if h.startOnce.done then 0 else 1) := by
  cases hd : h.startOnce.done with
  | true => rw [start_when_done env h ctx sr hd]; simp
  | false =>
    rw [start_when_not_done env h ctx sr hd]
    rcases startInternal_cases env h ctx sr with ⟨e, _, hs⟩ | ⟨oci, e, _, _, hs⟩ |
      ⟨oci, ln, _, _, hs⟩ <;> rw [hs] <;>
      simp [List.countP_cons, Effect.isListen, Effect.isServerCreated]

theorem start_keeps_pairing (env : Env) (h : ocReceiverHandler) (ctx : Context)
    (sr : Sink) (hp : h.ln = none ↔ h.grpcServer = none) :
    (StartTraceReception env h ctx sr).handle.ln = none ↔
      (StartTraceReception env h ctx sr).handle.grpcServer = none := by
  cases hd : h.startOnce.done with
  | true => rw [start_when_done env h ctx sr hd]; exact hp
  | false =>
    rw [start_when_not_done env h ctx sr hd]
    rcases startInternal_cases env h ctx sr with ⟨e, _, hs⟩ | ⟨oci, e, _, _, hs⟩ |
      ⟨oci, ln, _, _, hs⟩ <;> rw [hs]
    · exact hp
    · exact hp
    · simp

theorem step_startOnce (h : ocReceiverHandler) (c : Call) :
    (step h c).handle.startOnce.done = (h.startOnce.done || c.isStart) := by
  cases c with
  | start env ctx sr =>
    simp [step, Call.isStart, start_sets_done]
  | stop ctx =>
    simp [step, Call.isStart, (stop_config h ctx).2.2.1]

theorem step_config (h : ocReceiverHandler) (c : Call) :
    (step h c).handle.srvPort = h.srvPort ∧
    (step h c).handle.receiverOptions = h.receiverOptions := by
  cases c with
  | start env ctx sr =>
    exact ⟨(start_config env h ctx sr).1, (start_config env h ctx sr).2.1⟩
  | stop ctx =>
    exact ⟨(stop_config h ctx).1, (stop_config h ctx).2.1⟩

theorem step_keeps_pairing (h : ocReceiverHandler) (c : Call)
    (hp : h.ln = none ↔ h.grpcServer = none) :
    (step h c).handle.ln = none ↔ (step h c).handle.grpcServer = none := by
  cases c with
  | start env ctx sr => exact start_keeps_pairing env h ctx sr hp
  | stop ctx =>
    simp only [step]
    rw [(stop_config h ctx).2.2.2.1, (stop_config h ctx).2.2.2.2]
    exact hp

theorem step_effects_count (h : ocReceiverHandler) (c : Call) :
    List.countP Effect.isListen (step h c).effects
      ≤ (if h.startOnce.done then 0 else 1) ∧
    List.countP Effect.isServerCreated (step h c).effects
      ≤ (if h.startOnce.done then 0 else 1) := by
  cases c with
  | start env ctx sr => exact start_effects_count env h ctx sr
  | stop ctx =>
    simp only [step]
    rw [(stop_effects_no_start h ctx).1, (stop_effects_no_start h ctx).2]
    exact ⟨Nat.zero_le _, Nat.zero_le _⟩

theorem step_stopOnce (h : ocReceiverHandler) (c : Call) :
    (step h c).handle.stopOnce.done = (h.stopOnce.done || c.isStop) := by
  cases c with
  | start env ctx sr =>
    simp [step, Call.isStop, (start_config env h ctx sr).2.2]
  | stop ctx =>
    simp only [step, Call.isStop, Bool.or_true]
    unfold StopTraceReception
    cases hd : h.stopOnce.done with
    | true => simp [hd]
    | false => cases h.grpcServer <;> simp

theorem run_stopOnce (cs : List Call) (h : ocReceiverHandler) :
    (run h cs).1.stopOnce.done = (h.stopOnce.done || cs.any Call.isStop) := by
  induction cs generalizing h with
  | nil => simp [run]
  | cons c cs ih =>
    simp only [run, List.any_cons]
    rw [ih, step_stopOnce, Bool.or_assoc]

theorem run_append_handle (a b : List Call) (h : ocReceiverHandler) :
    (run h (a ++ b)).1 = (run (run h a).1 b).1 := by
  induction a generalizing h with
  | nil => rfl
  | cons c cs ih => simp only [List.cons_append, run]; exact ih _

theorem run_startOnce (cs : List Call) (h : ocReceiverHandler) :
    (run h cs).1.startOnce.done = (h.startOnce.done || cs.any Call.isStart) := by
  induction cs generalizing h with
  | nil => simp [run]
  | cons c cs ih =>
    simp only [run, List.any_cons]
    rw [ih, step_startOnce, Bool.or_assoc]

theorem run_config (cs : List Call) (h : ocReceiverHandler) :
    (run h cs).1.srvPort = h.srvPort ∧
    (run h cs).1.receiverOptions = h.receiverOptions := by
  induction cs generalizing h with
  | nil => exact ⟨rfl, rfl⟩
  | cons c cs ih =>
    simp only [run]
    exact ⟨(ih _).1.trans (step_config h c).1, (ih _).2.trans (step_config h c).2⟩

theorem run_keeps_pairing (cs : List Call) (h : ocReceiverHandler)
    (hp : h.ln = none ↔ h.grpcServer = none) :
    (run h cs).1.ln = none ↔ (run h cs).1.grpcServer = none := by
  induction cs generalizing h with
  | nil => exact hp
  | cons c cs ih =>
    simp only [run]
    exact ih _ (step_keeps_pairing h c hp)

theorem run_effects_count (cs : List Call) (h : ocReceiverHandler) :
    List.countP Effect.isListen (run h cs).2.1
      ≤ (if h.startOnce.done then 0 else 1) ∧
    List.countP Effect.isServerCreated (run h cs).2.1
      ≤ (if h.startOnce.done then 0 else 1) := by
  induction cs generalizing h with
  | nil => simp [run]
  | cons c cs ih =>
    simp only [run, List.countP_append]
    have hstep := step_effects_count h c
    have hrest := ih (step h c).handle
    rw [step_startOnce] at hrest
    cases hd : h.startOnce.done with
    | true =>
      rw [hd] at hstep hrest
      simp only [Bool.true_or, if_true] at hstep hrest
      simp only [if_true]
      omega
    | false =>
      rw [hd] at hstep hrest
      simp only [Bool.false_or] at hstep hrest
      cases hc : c.isStart with
      | true =>
        rw [hc] at hrest
        simp only [if_true] at hrest
        simp only [Bool.false_eq_true, if_false] at hstep ⊢
        omega
      | false =>
        have h0 : List.countP Effect.isListen (step h c).effects = 0 ∧
            List.countP Effect.isServerCreated (step h c).effects = 0 := by
          cases c with
          | start env ctx sr => simp [Call.isStart] at hc
          | stop ctx => exact stop_effects_no_start h ctx
        rw [hc] at hrest
        simp only [Bool.false_eq_true, if_false] at hrest ⊢
        omega

/-! ## Starting more than once -/

/-- C1: on a handle whose start guard has not fired, the first
`StartTraceReception` call is the one that runs `startInternal`: its effects
and its result are those of `startInternal`. Whatever that result is, every
later `StartTraceReception` call, with any environment and any sink, returns
exactly `errAlreadyStarted`, performs no effect at all and hands back the
handle with every field unchanged; so a whole sequence of calls has the effects
of the first call only and ends in the handle the first call left. -/
theorem start_only_first_call_runs (h : ocReceiverHandler)
    (hns : h.startOnce.done = false) (env : Env) (ctx : Context) (sr : Sink)
    (later : List (Env × Context × Sink)) :
    (StartTraceReception env h ctx sr).effects = (startInternal env h ctx sr).2.1 ∧
    (StartTraceReception env h ctx sr).result
      = .returned (startInternal env h ctx sr).2.2 ∧
    (∀ (env2 : Env) (ctx2 : Context) (sr2 : Sink),
      StartTraceReception env2 (StartTraceReception env h ctx sr).handle ctx2 sr2
        = { handle := (StartTraceReception env h ctx sr).handle,
            effects := [],
            result := .returned (some errAlreadyStarted) }) ∧
    errAlreadyStarted = GoError.errorsNew "already started" ∧
    run h (Call.start env ctx sr :: startCalls later)
      = ((StartTraceReception env h ctx sr).handle,
          (startInternal env h ctx sr).2.1,
          (StartTraceReception env h ctx sr).result ::
            List.replicate later.length
              (CallResult.returned (some errAlreadyStarted))) := by
  have hd := start_sets_done env h ctx sr
  refine ⟨?_, ?_, ?_, rfl, ?_⟩
  · rw [start_when_not_done env h ctx sr hns]
  · rw [start_when_not_done env h ctx sr hns]
  · intro env2 ctx2 sr2
    exact start_when_done env2 _ ctx2 sr2 hd
  · simp only [run, step]
    rw [run_starts_when_done later _ hd]
    rw [start_when_not_done env h ctx sr hns]
    simp

/-- Witness for C1: a fresh handle on port 0, a first call that succeeds and
two later calls. -/
theorem start_only_first_call_runs_witness :
    (NewTraceReceiver 0 []).1.startOnce.done = false ∧
    run (NewTraceReceiver 0 []).1
        (Call.start envOk ⟨0⟩ ⟨1⟩ :: startCalls [(envOk, ⟨0⟩, ⟨2⟩), (envOk, ⟨0⟩, ⟨3⟩)])
      = ((StartTraceReception envOk (NewTraceReceiver 0 []).1 ⟨0⟩ ⟨1⟩).handle,
          (startInternal envOk (NewTraceReceiver 0 []).1 ⟨0⟩ ⟨1⟩).2.1,
          (StartTraceReception envOk (NewTraceReceiver 0 []).1 ⟨0⟩ ⟨1⟩).result ::
            List.replicate 2 (CallResult.returned (some errAlreadyStarted))) :=
  ⟨rfl, (start_only_first_call_runs (NewTraceReceiver 0 []).1 rfl envOk ⟨0⟩ ⟨1⟩
    [(envOk, ⟨0⟩, ⟨2⟩), (envOk, ⟨0⟩, ⟨3⟩)]).2.2.2.2⟩

/-! ## Stopping -/

/-- C2 (amended): take a handle whose stop guard has not fired, that is, on
which no `StopTraceReception` call was made before, and on which
`StartTraceReception` returns nil. Then a sequence of one or more
`StopTraceReception` calls invokes `Stop` exactly once, on the server that the
start created; the first call returns nil and every later call returns exactly
`errAlreadyStopped`. Over a sequence of any length, the empty one included,
`Stop` is invoked at most once. -/
theorem stop_runs_once_after_start (h : ocReceiverHandler)
    (hst : h.stopOnce.done = false) (env : Env) (ctx : Context) (sr : Sink)
    (hok : (StartTraceReception env h ctx sr).result = .returned none)
    (ctx0 : Context) (ctxs : List Context) :
    (run (StartTraceReception env h ctx sr).handle (stopCalls (ctx0 :: ctxs))).2.2
      = CallResult.returned none ::
          List.replicate ctxs.length (CallResult.returned (some errAlreadyStopped)) ∧
    (run (StartTraceReception env h ctx sr).handle (stopCalls (ctx0 :: ctxs))).2.1
      = [.muLock, .serverStop env.GRPCServerWithObservabilityEnabled, .muUnlock] ∧
    List.countP Effect.isServerStop
      (run (StartTraceReception env h ctx sr).handle (stopCalls (ctx0 :: ctxs))).2.1
        = 1 ∧
    errAlreadyStopped = GoError.errorsNew "already stopped" ∧
    (∀ cs : List Context,
      List.countP Effect.isServerStop
        (run (StartTraceReception env h ctx sr).handle (stopCalls cs)).2.1 ≤ 1) := by
  -- the start ran `startInternal` to its end
  have hnd : h.startOnce.done = false := by
    cases hd : h.startOnce.done with
    | false => rfl
    | true =>
      rw [start_when_done env h ctx sr hd] at hok
      simp [errAlreadyStarted] at hok
  have hsrv : (StartTraceReception env h ctx sr).handle.grpcServer
      = some env.GRPCServerWithObservabilityEnabled := by
    rw [start_when_not_done env h ctx sr hnd] at hok ⊢
    rcases startInternal_cases env h ctx sr with ⟨e, _, hs⟩ | ⟨oci, e, _, _, hs⟩ |
      ⟨oci, ln, _, _, hs⟩
    · rw [hs] at hok; simp at hok
    · rw [hs] at hok; simp at hok
    · rw [hs]
  have hst1 : (StartTraceReception env h ctx sr).handle.stopOnce.done = false := by
    rw [start_when_not_done env h ctx sr hnd]
    rcases startInternal_cases env h ctx sr with ⟨e, _, hs⟩ | ⟨oci, e, _, _, hs⟩ |
      ⟨oci, ln, _, _, hs⟩ <;> rw [hs] <;> exact hst
  generalize (StartTraceReception env h ctx sr).handle = h1 at hsrv hst1
  have hfirst : ∀ c : Context, StopTraceReception h1 c
      = { handle := { h1 with stopOnce := ⟨true⟩ },
          effects := [.muLock, .serverStop env.GRPCServerWithObservabilityEnabled,
            .muUnlock],
          result := .returned none } := by
    intro c
    simp [StopTraceReception, hst1, hsrv]
  have hmany : ∀ (c : Context) (cs : List Context),
      run h1 (stopCalls (c :: cs))
        = ({ h1 with stopOnce := ⟨true⟩ },
            [.muLock, .serverStop env.GRPCServerWithObservabilityEnabled, .muUnlock],
            CallResult.returned none ::
              List.replicate cs.length
                (CallResult.returned (some errAlreadyStopped))) := by
    intro c cs
    have hrest := run_stops_when_done cs { h1 with stopOnce := ⟨true⟩ } rfl
    have hcons : stopCalls (c :: cs) = Call.stop c :: stopCalls cs := rfl
    rw [hcons]
    simp only [run, step]
    rw [hfirst c, hrest]
    simp
  refine ⟨?_, ?_, ?_, rfl, ?_⟩
  · rw [hmany]
  · rw [hmany]
  · rw [hmany]; simp [List.countP_cons, Effect.isServerStop]
  · intro cs
    cases cs with
    | nil => simp [stopCalls, run]
    | cons c cs => rw [hmany]; simp [List.countP_cons, Effect.isServerStop]

/-- Witness for C2: a fresh handle, a successful start, then three stops. -/
theorem stop_runs_once_after_start_witness :
    (NewTraceReceiver 0 []).1.stopOnce.done = false ∧
    (StartTraceReception envOk (NewTraceReceiver 0 []).1 ⟨0⟩ ⟨1⟩).result
      = .returned none ∧
    (run (StartTraceReception envOk (NewTraceReceiver 0 []).1 ⟨0⟩ ⟨1⟩).handle
        (stopCalls [⟨0⟩, ⟨0⟩, ⟨0⟩])).2.2
      = CallResult.returned none ::
          List.replicate 2 (CallResult.returned (some errAlreadyStopped)) :=
  ⟨rfl, by decide,
    (stop_runs_once_after_start (NewTraceReceiver 0 []).1 rfl envOk ⟨0⟩ ⟨1⟩
      (by decide) ⟨0⟩ [⟨0⟩, ⟨0⟩]).1⟩

/-- Counterexample to C2 as stated: on a fresh handle call
`StopTraceReception` (which consumes the stop guard), then `StartTraceReception`,
which returns nil. On this handle, on which the start has succeeded, the two
following `StopTraceReception` calls both return `errAlreadyStopped` and `Stop`
is never invoked on the server. So it is not true of every handle on which
`StartTraceReception` returns nil that the first following stop returns nil
and the server is stopped exactly once. -/
theorem stop_after_early_stop_counterexample :
    (run (NewTraceReceiver 0 []).1
        [Call.stop ⟨0⟩, Call.start envOk ⟨0⟩ ⟨1⟩, Call.stop ⟨0⟩, Call.stop ⟨0⟩]).2.2
      = [.panicked nilDereference, .returned none,
          .returned (some errAlreadyStopped), .returned (some errAlreadyStopped)] ∧
    List.countP Effect.isServerStop
      (run (NewTraceReceiver 0 []).1
        [Call.stop ⟨0⟩, Call.start envOk ⟨0⟩ ⟨1⟩, Call.stop ⟨0⟩, Call.stop ⟨0⟩]).2.1
      = 0 ∧
    ¬ (∀ (h : ocReceiverHandler) (env : Env) (ctx : Context) (sr : Sink)
        (ctx0 : Context) (ctxs : List Context),
        (StartTraceReception env h ctx sr).result = .returned none →
        (run (StartTraceReception env h ctx sr).handle
            (stopCalls (ctx0 :: ctxs))).2.2
          = CallResult.returned none ::
              List.replicate ctxs.length
                (CallResult.returned (some errAlreadyStopped)) ∧
        List.countP Effect.isServerStop
          (run (StartTraceReception env h ctx sr).handle
            (stopCalls (ctx0 :: ctxs))).2.1 = 1) := by
  refine ⟨by decide, by decide, ?_⟩
  intro hall
  have hbad := hall (StopTraceReception (NewTraceReceiver 0 []).1 ⟨0⟩).handle envOk
    ⟨0⟩ ⟨1⟩ ⟨0⟩ [⟨0⟩] (by decide)
  revert hbad
  decide

/-- C3 (evaluation at the failing input): on a freshly constructed handle, and
on a handle whose only start failed at bind, `StopTraceReception` does not
return `errAlreadyStopped`: it reaches the call of `Stop` on the nil
`grpcServer` and ends in a nil pointer dereference. Only the call after that
returns `errAlreadyStopped`. -/
theorem stop_before_start_panics :
    (StopTraceReception (NewTraceReceiver 0 []).1 ⟨0⟩).result
      = .panicked nilDereference ∧
    (StopTraceReception (NewTraceReceiver 0 []).1 ⟨0⟩).result
      ≠ .returned (some errAlreadyStopped) ∧
    (StopTraceReception
        (StartTraceReception envListenFails (NewTraceReceiver 0 []).1 ⟨0⟩ ⟨1⟩).handle
        ⟨0⟩).result
      = .panicked nilDereference ∧
    (run (NewTraceReceiver 0 []).1 [Call.stop ⟨0⟩, Call.stop ⟨0⟩]).2.2
      = [.panicked nilDereference, .returned (some errAlreadyStopped)] := by
  decide

/-! ## The bind address -/

/-- C4: let `p` be the configured port of a handle whose start guard has not
fired, and let adapter construction succeed. Then `StartTraceReception` makes
exactly one bind attempt, on network `tcp` and address `localhost:` followed by
the base 10 digits of `q`, where `q = p` if `p > 0` and `q = 55678` otherwise.
In particular port 0 and every negative port bind `localhost:55678`, and a
positive port binds itself. -/
theorem start_binds_resolved_port (h : ocReceiverHandler)
    (hns : h.startOnce.done = false) (env : Env) (ctx : Context) (sr : Sink)
    (oci : Receiver) (hnew : env.New sr h.receiverOptions = .ok oci) :
    (StartTraceReception env h ctx sr).effects.filter Effect.isListen
      = [.netListen "tcp"
          ("localhost:" ++ String.mk
            (Nat.toDigits 10 (if 0 < h.srvPort then h.srvPort else 55678).toNat))] ∧
    (h.srvPort ≤ 0 →
      (StartTraceReception env h ctx sr).effects.filter Effect.isListen
        = [.netListen "tcp" "localhost:55678"]) ∧
    (0 < h.srvPort →
      (StartTraceReception env h ctx sr).effects.filter Effect.isListen
        = [.netListen "tcp"
            ("localhost:" ++ String.mk (Nat.toDigits 10 h.srvPort.toNat))]) := by
  have hl := start_listen_effects env h ctx sr oci hns hnew
  have hq := sprintfLocalhost_pos (boundPort h) (boundPort_pos h)
  rw [hq, boundPort_eq] at hl
  refine ⟨hl, ?_, ?_⟩
  · intro hp
    rw [hl, if_neg (not_lt.mpr hp)]
    rfl
  · intro hp
    rw [hl, if_pos hp]

/-- Witness for C4: port 0 binds `localhost:55678`. -/
theorem start_binds_resolved_port_witness :
    (NewTraceReceiver 0 []).1.startOnce.done = false ∧
    envOk.New ⟨1⟩ (NewTraceReceiver 0 []).1.receiverOptions = .ok ⟨1⟩ ∧
    (StartTraceReception envOk (NewTraceReceiver 0 []).1 ⟨0⟩ ⟨1⟩).effects.filter
        Effect.isListen
      = [.netListen "tcp" "localhost:55678"] :=
  ⟨rfl, rfl,
    (start_binds_resolved_port (NewTraceReceiver 0 []).1 rfl envOk ⟨0⟩ ⟨1⟩ ⟨1⟩
      rfl).2.1 (by decide)⟩

/-! ## A first start that fails -/

/-- C5: on a handle as the constructors leave it, if `New` fails with `e`, or
`New` succeeds and `net.Listen` fails with `e`, then `StartTraceReception`
returns exactly `e`, the handle differs from the one before only in the start
guard (so `ln` and `grpcServer` stay nil), and no server is created, registered
or launched. When `New` fails the only effect besides the lock is the call of
`New`: no bind is attempted. -/
theorem start_failure_is_returned (h : ocReceiverHandler) (hns : notStarted h)
    (env : Env) (ctx : Context) (sr : Sink) (e : GoError)
    (hfail : env.New sr h.receiverOptions = .error e ∨
      ∃ oci, env.New sr h.receiverOptions = .ok oci ∧
        env.Listen "tcp" (sprintfLocalhost (boundPort h)) = .error e) :
    (StartTraceReception env h ctx sr).result = .returned (some e) ∧
    (StartTraceReception env h ctx sr).handle = { h with startOnce := ⟨true⟩ } ∧
    (StartTraceReception env h ctx sr).handle.ln = none ∧
    (StartTraceReception env h ctx sr).handle.grpcServer = none ∧
    (env.New sr h.receiverOptions = .error e →
      (StartTraceReception env h ctx sr).effects
        = [.muLock, .callNew sr h.receiverOptions, .muUnlock]) ∧
    ((∃ oci, env.New sr h.receiverOptions = .ok oci) →
      (StartTraceReception env h ctx sr).effects
        = [.muLock, .callNew sr h.receiverOptions,
            .netListen "tcp" (sprintfLocalhost (boundPort h)), .muUnlock]) := by
  obtain ⟨hln, hsrv, hd, _⟩ := hns
  rw [start_when_not_done env h ctx sr hd]
  rcases hfail with hnew | ⟨oci, hnew, hlisten⟩
  · rw [startInternal_new_error env h ctx sr e hnew]
    refine ⟨rfl, rfl, hln, hsrv, fun _ => rfl, ?_⟩
    rintro ⟨oci, hoci⟩
    rw [hnew] at hoci; cases hoci
  · rw [startInternal_listen_error env h ctx sr oci e hnew hlisten]
    refine ⟨rfl, rfl, hln, hsrv, ?_, fun _ => rfl⟩
    intro hbad
    rw [hnew] at hbad; cases hbad

/-- Witness for C5: on a fresh handle the bind fails. -/
theorem start_failure_is_returned_witness :
    notStarted (NewTraceReceiver 0 []).1 ∧
    (StartTraceReception envListenFails (NewTraceReceiver 0 []).1 ⟨0⟩ ⟨1⟩).result
      = .returned (some (.foreign 2 "bind: address already in use")) :=
  ⟨by decide,
    (start_failure_is_returned (NewTraceReceiver 0 []).1 (by decide)
      envListenFails ⟨0⟩ ⟨1⟩ (.foreign 2 "bind: address already in use")
      (Or.inr ⟨⟨1⟩, rfl, rfl⟩)).1⟩

/-- C6: if the first `StartTraceReception` call on a handle as the
constructors leave it returns an error, then after any sequence of further
`StartTraceReception` calls, whatever their environments answer, the handle
still has no listener and no server, every one of those calls has returned
exactly `errAlreadyStarted`, none has returned nil, and none has performed an
effect. -/
theorem failed_start_is_permanent (h : ocReceiverHandler) (hns : notStarted h)
    (env : Env) (ctx : Context) (sr : Sink) (e : GoError)
    (hfail : (StartTraceReception env h ctx sr).result = .returned (some e))
    (later : List (Env × Context × Sink)) :
    (run (StartTraceReception env h ctx sr).handle (startCalls later)).1.ln = none ∧
    (run (StartTraceReception env h ctx sr).handle (startCalls later)).1.grpcServer
      = none ∧
    (run (StartTraceReception env h ctx sr).handle (startCalls later)).2.1 = [] ∧
    (run (StartTraceReception env h ctx sr).handle (startCalls later)).2.2
      = List.replicate later.length (CallResult.returned (some errAlreadyStarted)) ∧
    (∀ r ∈ (run (StartTraceReception env h ctx sr).handle (startCalls later)).2.2,
      r ≠ CallResult.returned none) := by
  obtain ⟨hln, hsrv, hd, _⟩ := hns
  rw [run_starts_when_done later _ (start_sets_done env h ctx sr)]
  rw [start_when_not_done env h ctx sr hd] at hfail ⊢
  rcases startInternal_cases env h ctx sr with ⟨e1, _, hs⟩ | ⟨oci, e1, _, _, hs⟩ |
    ⟨oci, ln, _, _, hs⟩
  · rw [hs]
    refine ⟨hln, hsrv, rfl, rfl, ?_⟩
    intro r hr
    rw [List.eq_of_mem_replicate hr]
    simp
  · rw [hs]
    refine ⟨hln, hsrv, rfl, rfl, ?_⟩
    intro r hr
    rw [List.eq_of_mem_replicate hr]
    simp
  · rw [hs] at hfail
    simp at hfail

/-- Witness for C6: the bind fails at the first call and would succeed at the
two later calls. -/
theorem failed_start_is_permanent_witness :
    notStarted (NewTraceReceiver 0 []).1 ∧
    (StartTraceReception envListenFails (NewTraceReceiver 0 []).1 ⟨0⟩ ⟨1⟩).result
      = .returned (some (.foreign 2 "bind: address already in use")) ∧
    (run (StartTraceReception envListenFails (NewTraceReceiver 0 []).1 ⟨0⟩ ⟨1⟩).handle
        (startCalls [(envOk, ⟨0⟩, ⟨1⟩), (envOk, ⟨0⟩, ⟨1⟩)])).2.2
      = List.replicate 2 (CallResult.returned (some errAlreadyStarted)) :=
  ⟨by decide, by decide,
    (failed_start_is_permanent (NewTraceReceiver 0 []).1 (by decide)
      envListenFails ⟨0⟩ ⟨1⟩ (.foreign 2 "bind: address already in use")
      (by decide) [(envOk, ⟨0⟩, ⟨1⟩), (envOk, ⟨0⟩, ⟨1⟩)]).2.2.2.1⟩

/-! ## Invariants of the lifecycle -/

/-- C7: in the state reached from a freshly constructed handle by any sequence
of `StartTraceReception` and `StopTraceReception` calls, at most one bind has
been attempted and at most one server has been created over the whole
sequence, the listener field is nil exactly when the server field is nil, and
if the start guard has fired it remains fired after any single further call
and after any further sequence of calls, so the handle is never again in the
not-started state. -/
theorem lifecycle_invariant (port : Int) (opts : List Opt) (cs : List Call) :
    List.countP Effect.isListen (run (NewTraceReceiver port opts).1 cs).2.1 ≤ 1 ∧
    List.countP Effect.isServerCreated (run (NewTraceReceiver port opts).1 cs).2.1
      ≤ 1 ∧
    ((run (NewTraceReceiver port opts).1 cs).1.ln = none ↔
      (run (NewTraceReceiver port opts).1 cs).1.grpcServer = none) ∧
    (∀ c : Call,
      (run (NewTraceReceiver port opts).1 cs).1.startOnce.done = true →
        (step (run (NewTraceReceiver port opts).1 cs).1 c).handle.startOnce.done
            = true ∧
        ¬ notStarted (step (run (NewTraceReceiver port opts).1 cs).1 c).handle) ∧
    (∀ more : List Call,
      (run (NewTraceReceiver port opts).1 cs).1.startOnce.done = true →
        (run (NewTraceReceiver port opts).1 (cs ++ more)).1.startOnce.done = true ∧
        ¬ notStarted (run (NewTraceReceiver port opts).1 (cs ++ more)).1) := by
  have hcount := run_effects_count cs (NewTraceReceiver port opts).1
  have hfresh : (NewTraceReceiver port opts).1.startOnce.done = false := rfl
  rw [hfresh] at hcount
  refine ⟨by simpa using hcount.1, by simpa using hcount.2, ?_, ?_, ?_⟩
  · exact run_keeps_pairing cs _ (by simp [NewTraceReceiver])
  · intro c hd
    have hs : (step (run (NewTraceReceiver port opts).1 cs).1 c).handle.startOnce.done
        = true := by
      rw [step_startOnce, hd]; rfl
    refine ⟨hs, ?_⟩
    intro hn
    rw [hn.2.2.1] at hs
    cases hs
  · intro more hd
    have hs : (run (NewTraceReceiver port opts).1 (cs ++ more)).1.startOnce.done
        = true := by
      rw [run_append_handle, run_startOnce, hd]; rfl
    refine ⟨hs, ?_⟩
    intro hn
    rw [hn.2.2.1] at hs
    cases hs

/-! ## The constructors -/

/-- C8: `NewTraceReceiver port opts` returns a nil error and a handle in the
not-started state with `srvPort = port` and `receiverOptions = opts`;
`NewTraceReceiverOnDefaultPort opts` returns exactly what
`NewTraceReceiver 55678 opts` returns, and a start on it resolves the same bind
address, performs the same effects and returns the same result as a start on
`NewTraceReceiver 0 opts`. -/
theorem constructors_not_started (port : Int) (opts : List Opt) :
    (NewTraceReceiver port opts).2 = none ∧
    notStarted (NewTraceReceiver port opts).1 ∧
    (NewTraceReceiver port opts).1.srvPort = port ∧
    (NewTraceReceiver port opts).1.receiverOptions = opts ∧
    NewTraceReceiverOnDefaultPort opts = NewTraceReceiver 55678 opts ∧
    sprintfLocalhost (boundPort (NewTraceReceiverOnDefaultPort opts).1)
      = sprintfLocalhost (boundPort (NewTraceReceiver 0 opts).1) ∧
    sprintfLocalhost (boundPort (NewTraceReceiverOnDefaultPort opts).1)
      = "localhost:55678" ∧
    (∀ (env : Env) (ctx : Context) (sr : Sink),
      (StartTraceReception env (NewTraceReceiverOnDefaultPort opts).1 ctx sr).effects
        = (StartTraceReception env (NewTraceReceiver 0 opts).1 ctx sr).effects ∧
      (StartTraceReception env (NewTraceReceiverOnDefaultPort opts).1 ctx sr).result
        = (StartTraceReception env (NewTraceReceiver 0 opts).1 ctx sr).result) := by
  refine ⟨rfl, ⟨rfl, rfl, rfl, rfl⟩, rfl, rfl, rfl, rfl, rfl, ?_⟩
  intro env ctx sr
  have ha : boundPort (NewTraceReceiverOnDefaultPort opts).1
      = boundPort (NewTraceReceiver 0 opts).1 := rfl
  rw [start_when_not_done env (NewTraceReceiverOnDefaultPort opts).1 ctx sr rfl,
    start_when_not_done env (NewTraceReceiver 0 opts).1 ctx sr rfl]
  rcases startInternal_cases env (NewTraceReceiver 0 opts).1 ctx sr with
    ⟨e, hn, hs⟩ | ⟨oci, e, hn, hl, hs⟩ | ⟨oci, ln, hn, hl, hs⟩
  · rw [hs, startInternal_new_error env (NewTraceReceiverOnDefaultPort opts).1 ctx
      sr e hn]
    exact ⟨rfl, rfl⟩
  · rw [hs, startInternal_listen_error env (NewTraceReceiverOnDefaultPort opts).1
      ctx sr oci e hn (ha ▸ hl)]
    exact ⟨rfl, rfl⟩
  · rw [hs, startInternal_ok env (NewTraceReceiverOnDefaultPort opts).1 ctx sr oci
      ln hn (ha ▸ hl)]
    exact ⟨rfl, rfl⟩

/-! ## When a start succeeds -/

/-- C10: take the handle reached from a freshly constructed one by any sequence
of earlier calls. A `StartTraceReception` call on it returns nil if and only if
no earlier call was a `StartTraceReception` and both `New` and `net.Listen`
succeed. In that case the handle records the listener that `net.Listen`
returned and the server that was created, and the effects are, in order: `New`
on the sink of the caller, the bind, the creation of the server, the
registration on that server of the adapter that `New` returned, and the launch
of `Serve` for that server on that listener. -/
theorem start_nil_iff_first_and_ok (port : Int) (opts : List Opt)
    (before : List Call) (env : Env) (ctx : Context) (sr : Sink) :
    ((StartTraceReception env (run (NewTraceReceiver port opts).1 before).1 ctx
        sr).result = .returned none ↔
      before.any Call.isStart = false ∧
      ∃ oci ln, env.New sr opts = .ok oci ∧
        env.Listen "tcp" (sprintfLocalhost (boundPort (NewTraceReceiver port opts).1))
          = .ok ln) ∧
    (∀ oci ln, before.any Call.isStart = false →
      env.New sr opts = .ok oci →
      env.Listen "tcp" (sprintfLocalhost (boundPort (NewTraceReceiver port opts).1))
        = .ok ln →
      (StartTraceReception env (run (NewTraceReceiver port opts).1 before).1 ctx
          sr).handle.ln = some ln ∧
      (StartTraceReception env (run (NewTraceReceiver port opts).1 before).1 ctx
          sr).handle.grpcServer = some env.GRPCServerWithObservabilityEnabled ∧
      (StartTraceReception env (run (NewTraceReceiver port opts).1 before).1 ctx
          sr).effects
        = [.muLock, .callNew sr opts,
            .netListen "tcp"
              (sprintfLocalhost (boundPort (NewTraceReceiver port opts).1)),
            .serverCreated env.GRPCServerWithObservabilityEnabled,
            .registerTraceServiceServer env.GRPCServerWithObservabilityEnabled oci,
            .goServe env.GRPCServerWithObservabilityEnabled ln, .muUnlock]) := by
  have hcfg := run_config before (NewTraceReceiver port opts).1
  have hopts : (run (NewTraceReceiver port opts).1 before).1.receiverOptions = opts :=
    hcfg.2
  have hport : boundPort (run (NewTraceReceiver port opts).1 before).1
      = boundPort (NewTraceReceiver port opts).1 := by
    unfold boundPort; rw [hcfg.1]
  have hdone : (run (NewTraceReceiver port opts).1 before).1.startOnce.done
      = before.any Call.isStart := by
    rw [run_startOnce]; rfl
  generalize (run (NewTraceReceiver port opts).1 before).1 = h at hopts hport hdone
  constructor
  · constructor
    · intro hres
      cases hd : h.startOnce.done with
      | true =>
        rw [start_when_done env h ctx sr hd] at hres
        simp [errAlreadyStarted] at hres
      | false =>
        refine ⟨hdone ▸ hd, ?_⟩
        rw [start_when_not_done env h ctx sr hd] at hres
        rcases startInternal_cases env h ctx sr with ⟨e, _, hs⟩ |
          ⟨oci, e, _, _, hs⟩ | ⟨oci, ln, hn, hl, hs⟩
        · rw [hs] at hres; simp at hres
        · rw [hs] at hres; simp at hres
        · exact ⟨oci, ln, hopts ▸ hn, hport ▸ hl⟩
    · rintro ⟨hb, oci, ln, hn, hl⟩
      have hd : h.startOnce.done = false := hdone.trans hb
      rw [start_when_not_done env h ctx sr hd,
        startInternal_ok env h ctx sr oci ln (hopts ▸ hn) (hport ▸ hl)]
  · intro oci ln hb hn hl
    have hd : h.startOnce.done = false := hdone.trans hb
    rw [start_when_not_done env h ctx sr hd,
      startInternal_ok env h ctx sr oci ln (hopts.symm ▸ hn) (hport.symm ▸ hl)]
    rw [hopts, hport]
    exact ⟨rfl, rfl, rfl⟩

end octrace
